import Mathlib

/-!
Shallow embedding of `src/predator_prey/simulate_predator_prey.py`
(predator-prey reaction-diffusion simulation on a halo-padded land/water
grid), together with theorems settling the specification claims.

Conventions of the embedding:
* Densities are rationals (`ℚ`), idealising Python floats.
* A density buffer is a total function `Cell → ℚ`; the landscape mask and
  the neighbour-count array are `Cell → ℤ` (NumPy int arrays).
* Arrays are halo-padded: the real grid occupies rows `1..height` and
  columns `1..width` of a `(height+2) × (width+2)` array.
* Loops that mutate an array in place are folds threading the buffer;
  the per-iteration body is translated statement by statement.
-/

/-- A cell address `(x, y)`: `x` is the row, `y` the column, as in the
NumPy indexing `array[x, y]` of the source. -/
abbrev Cell : Type := ℕ × ℕ

/-- A density array (mouse or fox). -/
abbrev Buf : Type := Cell → ℚ

/-- An integer array (the landscape mask, or the neighbour counts). -/
abbrev IGrid : Type := Cell → ℤ

/-- The three rates of one species, the tuple
`(birth_rate, death_rate, diffusion_rate)` of the source. -/
structure Rates where
  birth : ℚ
  death : ℚ
  diffu : ℚ

/-- Predicate: `(x, y)` is an interior (non-halo) cell of a `height × width` grid:
`1 ≤ x ≤ height` and `1 ≤ y ≤ width`.  These are exactly the indices the
source loops `for x in range(1, height+1): for y in range(1, width+1)`
visit. -/
def inInterior (height width : ℕ) (c : Cell) : Prop :=
  1 ≤ c.1 ∧ c.1 ≤ height ∧ 1 ≤ c.2 ∧ c.2 ≤ width

instance (height width : ℕ) (c : Cell) : Decidable (inInterior height width c) := by
  unfold inInterior; infer_instance

/-- The interior cells in the row-major order of the nested source
loops: `x` from `1` to `height` outer, `y` from `1` to `width` inner. -/
def cellsRM (height width : ℕ) : List Cell :=
  (List.range height).flatMap fun x => (List.range width).map fun y => (x + 1, y + 1)

/-- All indices of the halo-padded `(height+2) × (width+2)` array, in
row-major order (the cells a whole-array NumPy reduction like `np.sum`
or `np.max` ranges over). -/
def paddedCells (height width : ℕ) : List Cell :=
  (List.range (height + 2)).flatMap fun x => (List.range (width + 2)).map fun y => (x, y)

/-- Sum of the four 4-neighbour values of `d` at `(x, y)`, literally
`d[x-1,y] + d[x+1,y] + d[x,y-1] + d[x,y+1]` (meaningful for interior
cells, where `x ≥ 1` and `y ≥ 1`). -/
def neighborSum (d : Buf) (c : Cell) : ℚ :=
  d (c.1 - 1, c.2) + d (c.1 + 1, c.2) + d (c.1, c.2 - 1) + d (c.1, c.2 + 1)

/-- The new mouse density the kernel computes at a land cell before
clamping: `md + delta_t * (growth - predation + diffusion)`. -/
def mouseFormula (mouse_density fox_density : Buf) (num_neighbors : IGrid)
    (mouse_rates : Rates) (delta_t : ℚ) (c : Cell) : ℚ :=
  let md := mouse_density c
  let fd := fox_density c
  let mn : ℚ := (num_neighbors c : ℚ)
  md + delta_t * (mouse_rates.birth * md - mouse_rates.death * md * fd +
    mouse_rates.diffu * (neighborSum mouse_density c - mn * md))

/-- The new fox density the kernel computes at a land cell before
clamping: `fd + delta_t * (fox_growth - starvation + diffusion)`. -/
def foxFormula (mouse_density fox_density : Buf) (num_neighbors : IGrid)
    (fox_rates : Rates) (delta_t : ℚ) (c : Cell) : ℚ :=
  let md := mouse_density c
  let fd := fox_density c
  let mn : ℚ := (num_neighbors c : ℚ)
  fd + delta_t * (fox_rates.birth * md * fd - fox_rates.death * fd +
    fox_rates.diffu * (neighborSum fox_density c - mn * fd))

/-- One iteration of the nested-loop body of `update_densities` at cell
`c`: if `landscape[x, y]` is truthy (non-zero), write the clamped mouse
and fox formulas into the new buffers at `c`; otherwise leave the state
alone.  The state `st` is the pair `(new_mouse_density, new_fox_density)`. -/
def updateCell (landscape : IGrid) (mouse_density fox_density : Buf)
    (num_neighbors : IGrid) (mouse_rates fox_rates : Rates) (delta_t : ℚ)
    (st : Buf × Buf) (c : Cell) : Buf × Buf :=
  if landscape c ≠ 0 then
    let nm := mouseFormula mouse_density fox_density num_neighbors mouse_rates delta_t c
    let nm := if nm < 0 then 0 else nm
    let nf := foxFormula mouse_density fox_density num_neighbors fox_rates delta_t c
    let nf := if nf < 0 then 0 else nf
    (fun p => if p = c then nm else st.1 p, fun p => if p = c then nf else st.2 p)
  else st

/-- Model of `update_densities`: the per-step kernel.  Iterates the loop body over
the interior cells in row-major order, threading the pair of next-state
buffers. -/
def update_densities (landscape : IGrid) (mouse_density fox_density : Buf)
    (num_neighbors : IGrid) (mouse_rates fox_rates : Rates) (delta_t : ℚ)
    (height width : ℕ) (st : Buf × Buf) : Buf × Buf :=
  (cellsRM height width).foldl
    (updateCell landscape mouse_density fox_density num_neighbors mouse_rates fox_rates delta_t)
    st

theorem cellsRM_mem (height width : ℕ) (c : Cell) :
    c ∈ cellsRM height width ↔ inInterior height width c := by
  unfold cellsRM inInterior
  constructor
  · intro h
    simp only [List.mem_flatMap, List.mem_map, List.mem_range] at h
    obtain ⟨x, hx, y, hy, rfl⟩ := h
    omega
  · intro h
    simp only [List.mem_flatMap, List.mem_map, List.mem_range]
    exact ⟨c.1 - 1, by omega, c.2 - 1, by omega, by obtain ⟨x, y⟩ := c; simp; omega⟩

/-- The clamped mouse value the kernel stores at a visited land cell
(`new_mouse_density[x,y] = ...; if ... < 0: ... = 0`). -/
def clampedMouse (mouse_density fox_density : Buf) (num_neighbors : IGrid)
    (mouse_rates : Rates) (delta_t : ℚ) (c : Cell) : ℚ :=
  let nm := mouseFormula mouse_density fox_density num_neighbors mouse_rates delta_t c
  if nm < 0 then 0 else nm

/-- The clamped fox value the kernel stores at a visited land cell. -/
def clampedFox (mouse_density fox_density : Buf) (num_neighbors : IGrid)
    (fox_rates : Rates) (delta_t : ℚ) (c : Cell) : ℚ :=
  let nf := foxFormula mouse_density fox_density num_neighbors fox_rates delta_t c
  if nf < 0 then 0 else nf

theorem foldl_updateCell_apply (landscape : IGrid) (mouse_density fox_density : Buf)
    (num_neighbors : IGrid) (mouse_rates fox_rates : Rates) (delta_t : ℚ)
    (L : List Cell) (st : Buf × Buf) (c : Cell) :
    (L.foldl (updateCell landscape mouse_density fox_density num_neighbors
        mouse_rates fox_rates delta_t) st).1 c =
      (if c ∈ L ∧ landscape c ≠ 0 then
        clampedMouse mouse_density fox_density num_neighbors mouse_rates delta_t c
      else st.1 c) ∧
    (L.foldl (updateCell landscape mouse_density fox_density num_neighbors
        mouse_rates fox_rates delta_t) st).2 c =
      (if c ∈ L ∧ landscape c ≠ 0 then
        clampedFox mouse_density fox_density num_neighbors fox_rates delta_t c
      else st.2 c) := by
  induction L generalizing st with
  | nil => simp
  | cons a L ih =>
    simp only [List.foldl_cons]
    obtain ⟨ih1, ih2⟩ := ih (updateCell landscape mouse_density fox_density num_neighbors
      mouse_rates fox_rates delta_t st a)
    rw [ih1, ih2]
    by_cases hmem : c ∈ L ∧ landscape c ≠ 0
    · simp [hmem, List.mem_cons, hmem.1, hmem.2]
    · by_cases hca : c = a
      · subst hca
        by_cases hl : landscape c ≠ 0
        · have hcL : c ∉ L := fun h => hmem ⟨h, hl⟩
          simp [hcL, hl, updateCell, clampedMouse, clampedFox]
        · simp only [ne_eq, not_not] at hl
          simp [hmem, updateCell, hl]
      · have hnotc : ¬(c ∈ a :: L ∧ landscape c ≠ 0) := by
          intro h
          rcases List.mem_cons.mp h.1 with h1 | h1
          · exact hca h1
          · exact hmem ⟨h1, h.2⟩
        simp only [hmem, if_false, hnotc, if_false, updateCell]
        by_cases hl : landscape a ≠ 0
        · simp [hl, hca]
        · simp [hl]

theorem clamp_eq_max (v : ℚ) : (if v < 0 then 0 else v) = max 0 v := by
  by_cases h : v < 0
  · simp [h, max_eq_left h.le]
  · push_neg at h
    simp [not_lt.mpr h, max_eq_right h]

/-- C1.  One invocation of `update_densities` sets, at every interior land
cell `(x,y)`, the next mouse density to
`max(0, M + dt*(mouse_birth*M - mouse_death*M*F + mouse_diff*(neighbour sum - N*M)))`
and the next fox density to
`max(0, F + dt*(fox_birth*M*F - fox_death*F + fox_diff*(neighbour sum - N*F)))`,
with `M`, `F` the current densities at `(x,y)` and `N = num_neighbors[x,y]`;
at every other cell (water or halo) it leaves both next-buffer values
unchanged. -/
theorem C1_update_kernel (landscape : IGrid) (md fd : Buf) (nn : IGrid)
    (mr fr : Rates) (dt : ℚ) (height width : ℕ) (st : Buf × Buf) (c : Cell) :
    (update_densities landscape md fd nn mr fr dt height width st).1 c =
      (if inInterior height width c ∧ landscape c ≠ 0 then
        max 0 (md c + dt * (mr.birth * md c - mr.death * md c * fd c +
          mr.diffu * ((md (c.1 - 1, c.2) + md (c.1 + 1, c.2) +
            md (c.1, c.2 - 1) + md (c.1, c.2 + 1)) - (nn c : ℚ) * md c)))
      else st.1 c) ∧
    (update_densities landscape md fd nn mr fr dt height width st).2 c =
      (if inInterior height width c ∧ landscape c ≠ 0 then
        max 0 (fd c + dt * (fr.birth * md c * fd c - fr.death * fd c +
          fr.diffu * ((fd (c.1 - 1, c.2) + fd (c.1 + 1, c.2) +
            fd (c.1, c.2 - 1) + fd (c.1, c.2 + 1)) - (nn c : ℚ) * fd c)))
      else st.2 c) := by
  obtain ⟨h1, h2⟩ := foldl_updateCell_apply landscape md fd nn mr fr dt
    (cellsRM height width) st c
  unfold update_densities
  rw [h1, h2]
  simp only [cellsRM_mem, clampedMouse, clampedFox, mouseFormula, foxFormula,
    neighborSum, clamp_eq_max]
  constructor <;> trivial

/-- C9.  Within one kernel pass, (a) iterating the loop body over any
reordering of the interior cells yields exactly the same next buffers as
the row-major order `update_densities` uses — possible because each write
depends only on the read-only current buffers, never on values already
written to the next buffers during the pass — and (b) the value written
at a cell depends only on the current densities at that cell and its four
neighbours. -/
theorem C9_kernel_order_and_locality (landscape : IGrid) (md fd md2 fd2 : Buf)
    (nn : IGrid) (mr fr : Rates) (dt : ℚ) (height width : ℕ) (st : Buf × Buf)
    (L : List Cell) (c : Cell)
    (hL : L.Perm (cellsRM height width))
    (hagree : ∀ p : Cell, (p = c ∨ p = (c.1 - 1, c.2) ∨ p = (c.1 + 1, c.2) ∨
      p = (c.1, c.2 - 1) ∨ p = (c.1, c.2 + 1)) → md p = md2 p ∧ fd p = fd2 p) :
    ((L.foldl (updateCell landscape md fd nn mr fr dt) st).1 c =
      (update_densities landscape md fd nn mr fr dt height width st).1 c ∧
     (L.foldl (updateCell landscape md fd nn mr fr dt) st).2 c =
      (update_densities landscape md fd nn mr fr dt height width st).2 c) ∧
    (clampedMouse md fd nn mr dt c = clampedMouse md2 fd2 nn mr dt c ∧
     clampedFox md fd nn fr dt c = clampedFox md2 fd2 nn fr dt c) := by
  constructor
  · obtain ⟨hA1, hA2⟩ := foldl_updateCell_apply landscape md fd nn mr fr dt L st c
    obtain ⟨hB1, hB2⟩ := foldl_updateCell_apply landscape md fd nn mr fr dt
      (cellsRM height width) st c
    unfold update_densities
    rw [hA1, hA2, hB1, hB2]
    simp only [hL.mem_iff]
    constructor <;> trivial
  · obtain ⟨hc1, hc2⟩ := hagree c (Or.inl rfl)
    obtain ⟨hu1, hu2⟩ := hagree (c.1 - 1, c.2) (Or.inr (Or.inl rfl))
    obtain ⟨hd1, hd2⟩ := hagree (c.1 + 1, c.2) (Or.inr (Or.inr (Or.inl rfl)))
    obtain ⟨hl1, hl2⟩ := hagree (c.1, c.2 - 1) (Or.inr (Or.inr (Or.inr (Or.inl rfl))))
    obtain ⟨hr1, hr2⟩ := hagree (c.1, c.2 + 1) (Or.inr (Or.inr (Or.inr (Or.inr rfl))))
    constructor
    · simp only [clampedMouse, mouseFormula, neighborSum, hc1, hc2, hu1, hd1, hl1, hr1]
    · simp only [clampedFox, foxFormula, neighborSum, hc1, hc2, hu2, hd2, hl2, hr2]

/-- Witness for C9: on a 1×2 all-land strip, folding the kernel body over
the reversed cell order gives the same result at cell `(1,1)` as
`update_densities`, and the written values agree between two buffer pairs
that agree on the stencil (here: syntactically equal buffers). -/
theorem C9_kernel_order_and_locality_witness :
    (([((1 : ℕ), (2 : ℕ)), (1, 1)].foldl
        (updateCell (fun _ => 1) (fun _ => 2) (fun _ => 3) (fun _ => 1)
          ⟨1, 1, 1⟩ ⟨1, 1, 1⟩ 1) (fun _ => 0, fun _ => 0)).1 (1, 1) =
      (update_densities (fun _ => 1) (fun _ => 2) (fun _ => 3) (fun _ => 1)
          ⟨1, 1, 1⟩ ⟨1, 1, 1⟩ 1 1 2 (fun _ => 0, fun _ => 0)).1 (1, 1) ∧
     ([((1 : ℕ), (2 : ℕ)), (1, 1)].foldl
        (updateCell (fun _ => 1) (fun _ => 2) (fun _ => 3) (fun _ => 1)
          ⟨1, 1, 1⟩ ⟨1, 1, 1⟩ 1) (fun _ => 0, fun _ => 0)).2 (1, 1) =
      (update_densities (fun _ => 1) (fun _ => 2) (fun _ => 3) (fun _ => 1)
          ⟨1, 1, 1⟩ ⟨1, 1, 1⟩ 1 1 2 (fun _ => 0, fun _ => 0)).2 (1, 1)) ∧
    (clampedMouse (fun _ => 2) (fun _ => 3) (fun _ => 1) ⟨1, 1, 1⟩ 1 (1, 1) =
      clampedMouse (fun _ => 2) (fun _ => 3) (fun _ => 1) ⟨1, 1, 1⟩ 1 (1, 1) ∧
     clampedFox (fun _ => 2) (fun _ => 3) (fun _ => 1) ⟨1, 1, 1⟩ 1 (1, 1) =
      clampedFox (fun _ => 2) (fun _ => 3) (fun _ => 1) ⟨1, 1, 1⟩ 1 (1, 1)) :=
  C9_kernel_order_and_locality (fun _ => 1) (fun _ => 2) (fun _ => 3) (fun _ => 2)
    (fun _ => 3) (fun _ => 1) ⟨1, 1, 1⟩ ⟨1, 1, 1⟩ 1 1 2 (fun _ => 0, fun _ => 0)
    [(1, 2), (1, 1)] (1, 1) (by decide) (fun p _ => ⟨rfl, rfl⟩)

/-- The state of the process-global Python `random` module after some
`random.seed(s)` call: the seed `s` and the number of draws made since.
Draws of a seeded Mersenne Twister are a pure function of these two; the
draw function itself is abstracted as a parameter `u : ℤ → ℕ → ℚ`
(`u s k` = the `k`-th value `random.uniform(0, 5.0)` returns after
`random.seed(s)`). -/
abbrev RState : Type := ℤ × ℕ

/-- Body of the loop of `initialize_density_array` at cell `c`:
`density_array[x, y] = random.uniform(0, 5.0) if landscape[x, y] else 0`.
The uniform draw happens (and advances the global PRNG) only when the
cell is land. -/
def initCell (landscape : IGrid) (u : ℤ → ℕ → ℚ) (st : Buf × RState) (c : Cell) :
    Buf × RState :=
  if landscape c ≠ 0 then
    (fun p => if p = c then u st.2.1 st.2.2 else st.1 p, (st.2.1, st.2.2 + 1))
  else
    (fun p => if p = c then 0 else st.1 p, st.2)

/-- Model of `initialize_density_array`: starts from `landscape.astype(float)`,
calls `random.seed(seed)` (discarding the incoming global PRNG state
`g0`), then fills the interior row-major.  Returns the density array and
the global PRNG state left behind. -/
def initialize_density_array (landscape : IGrid) (u : ℤ → ℕ → ℚ) (seed : ℤ)
    (height width : ℕ) (g0 : RState) : Buf × RState :=
  (cellsRM height width).foldl (initCell landscape u)
    (fun c => (landscape c : ℚ), (seed, 0))

theorem initCell_foldl_seed (landscape : IGrid) (u : ℤ → ℕ → ℚ)
    (L : List Cell) (st : Buf × RState) :
    ((L.foldl (initCell landscape u) st).2).1 = st.2.1 := by
  induction L generalizing st with
  | nil => rfl
  | cons a L ih =>
    rw [List.foldl_cons, ih]
    unfold initCell
    by_cases h : landscape a ≠ 0 <;> simp [h]

theorem initCell_foldl_notmem (landscape : IGrid) (u : ℤ → ℕ → ℚ)
    (L : List Cell) (st : Buf × RState) (c : Cell) (hc : c ∉ L) :
    (L.foldl (initCell landscape u) st).1 c = st.1 c := by
  induction L generalizing st with
  | nil => rfl
  | cons a L ih =>
    rw [List.foldl_cons, ih _ (fun h => hc (List.mem_cons_of_mem a h))]
    have hca : c ≠ a := fun h => hc (h ▸ List.mem_cons_self a L)
    unfold initCell
    by_cases h : landscape a ≠ 0 <;> simp [h, hca]

theorem initCell_foldl_water (landscape : IGrid) (u : ℤ → ℕ → ℚ)
    (L : List Cell) (st : Buf × RState) (c : Cell) (hc : c ∈ L)
    (hw : landscape c = 0) :
    (L.foldl (initCell landscape u) st).1 c = 0 := by
  induction L generalizing st with
  | nil => cases hc
  | cons a L ih =>
    rw [List.foldl_cons]
    by_cases hcL : c ∈ L
    · exact ih _ hcL
    · have hca : c = a := by
        rcases List.mem_cons.mp hc with h | h
        · exact h
        · exact absurd h hcL
      subst hca
      rw [initCell_foldl_notmem landscape u L _ c hcL]
      unfold initCell
      simp [hw]

theorem initCell_foldl_land (landscape : IGrid) (u : ℤ → ℕ → ℚ)
    (L : List Cell) (st : Buf × RState) (c : Cell) (hc : c ∈ L)
    (hl : landscape c ≠ 0) :
    ∃ k : ℕ, (L.foldl (initCell landscape u) st).1 c = u st.2.1 k := by
  induction L generalizing st with
  | nil => cases hc
  | cons a L ih =>
    rw [List.foldl_cons]
    by_cases hcL : c ∈ L
    · obtain ⟨k, hk⟩ := ih (initCell landscape u st a) hcL
      refine ⟨k, ?_⟩
      rw [hk]
      unfold initCell
      by_cases h : landscape a ≠ 0 <;> simp [h]
    · have hca : c = a := by
        rcases List.mem_cons.mp hc with h | h
        · exact h
        · exact absurd h hcL
      subst hca
      rw [initCell_foldl_notmem landscape u L _ c hcL]
      unfold initCell
      simp only [hl, if_true, ne_eq, not_false_iff, if_pos rfl]
      exact ⟨st.2.2, by simp⟩

/-- C8.  `initialize_density_array` is a deterministic function of the
landscape and the seed: its result is independent of the incoming global
PRNG state (the function reseeds first), so two calls with the same
arguments — in particular the fox call that runs right after the mouse
call when the two seeds coincide — produce element-wise identical
arrays; every mask-0 cell is exactly 0; and every interior land cell
carries a uniform draw from `[0, 5)`. -/
theorem C8_init_deterministic (landscape : IGrid) (u : ℤ → ℕ → ℚ) (seed : ℤ)
    (height width : ℕ) (g0 g1 : RState) (c : Cell)
    (hu : ∀ (s : ℤ) (k : ℕ), 0 ≤ u s k ∧ u s k < 5) :
    (initialize_density_array landscape u seed height width g0).1 c =
      (initialize_density_array landscape u seed height width g1).1 c ∧
    (initialize_density_array landscape u seed height width
        (initialize_density_array landscape u seed height width g0).2).1 c =
      (initialize_density_array landscape u seed height width g0).1 c ∧
    (landscape c = 0 →
      (initialize_density_array landscape u seed height width g0).1 c = 0) ∧
    (inInterior height width c → landscape c ≠ 0 →
      0 ≤ (initialize_density_array landscape u seed height width g0).1 c ∧
      (initialize_density_array landscape u seed height width g0).1 c < 5) := by
  refine ⟨rfl, rfl, ?_, ?_⟩
  · intro hw
    unfold initialize_density_array
    by_cases hc : c ∈ cellsRM height width
    · exact initCell_foldl_water landscape u _ _ c hc hw
    · rw [initCell_foldl_notmem landscape u _ _ c hc]
      simp [hw]
  · intro hin hl
    have hc : c ∈ cellsRM height width := (cellsRM_mem height width c).mpr hin
    obtain ⟨k, hk⟩ := initCell_foldl_land landscape u (cellsRM height width)
      (fun p => (landscape p : ℚ), (seed, 0)) c hc hl
    unfold initialize_density_array
    rw [hk]
    exact hu seed k

/-- Witness for C8, on the 1×1 all-land grid with the constant draw
function `u = 1`. -/
theorem C8_init_deterministic_witness :
    (initialize_density_array (fun _ => 1) (fun _ _ => 1) 1 1 1 (0, 0)).1 (1, 1) =
      (initialize_density_array (fun _ => 1) (fun _ _ => 1) 1 1 1 (5, 7)).1 (1, 1) ∧
    (initialize_density_array (fun _ => 1) (fun _ _ => 1) 1 1 1
        (initialize_density_array (fun _ => 1) (fun _ _ => 1) 1 1 1 (0, 0)).2).1 (1, 1) =
      (initialize_density_array (fun _ => 1) (fun _ _ => 1) 1 1 1 (0, 0)).1 (1, 1) ∧
    ((1 : ℤ) = 0 →
      (initialize_density_array (fun _ => 1) (fun _ _ => 1) 1 1 1 (0, 0)).1 (1, 1) = 0) ∧
    (inInterior 1 1 (1, 1) → (1 : ℤ) ≠ 0 →
      0 ≤ (initialize_density_array (fun _ => 1) (fun _ _ => 1) 1 1 1 (0, 0)).1 (1, 1) ∧
      (initialize_density_array (fun _ => 1) (fun _ _ => 1) 1 1 1 (0, 0)).1 (1, 1) < 5) :=
  C8_init_deterministic (fun _ => 1) (fun _ _ => 1) 1 1 1 (0, 0) (5, 7) (1, 1)
    (fun _ _ => ⟨by norm_num, by norm_num⟩)

/-- The double-buffered per-species state of the `simulate` loop:
`(mouse_density, fox_density, new_mouse_density, new_fox_density)`. -/
structure SimState where
  mouse : Buf
  fox : Buf
  newMouse : Buf
  newFox : Buf

/-- One iteration of the `simulate` time loop, output aside: run
`update_densities` from the current buffers into the new buffers, then
swap current/new per species. -/
def stepSim (landscape num_neighbors : IGrid) (mouse_rates fox_rates : Rates)
    (delta_t : ℚ) (height width : ℕ) (s : SimState) : SimState :=
  let nxt := update_densities landscape s.mouse s.fox num_neighbors mouse_rates
    fox_rates delta_t height width (s.newMouse, s.newFox)
  { mouse := nxt.1, fox := nxt.2, newMouse := s.mouse, newFox := s.fox }

/-- The state `simulate` sets up before the loop: mouse densities
initialised from `mouse_seed`, fox densities from `fox_seed` (run second,
against whatever global PRNG state the first run left), `new_*` buffers
copies of the fresh densities.  Also returns the final global PRNG
state. -/
def initSimState (landscape : IGrid) (u : ℤ → ℕ → ℚ) (mouse_seed fox_seed : ℤ)
    (height width : ℕ) (g0 : RState) : SimState × RState :=
  let m := initialize_density_array landscape u mouse_seed height width g0
  let f := initialize_density_array landscape u fox_seed height width m.2
  ({ mouse := m.1, fox := f.1, newMouse := m.1, newFox := f.1 }, f.2)

/-- C2.  At every point of the simulation lifetime — after
initialisation and after each kernel step plus buffer swap — every cell
whose mask value is 0 (water or halo) holds density exactly 0, in all
four buffers. -/
theorem C2_water_density_zero (landscape num_neighbors : IGrid) (u : ℤ → ℕ → ℚ)
    (mouse_seed fox_seed : ℤ) (mouse_rates fox_rates : Rates) (delta_t : ℚ)
    (height width : ℕ) (g0 : RState) (n : ℕ) (c : Cell)
    (hw : landscape c = 0) :
    ((stepSim landscape num_neighbors mouse_rates fox_rates delta_t height width)^[n]
        (initSimState landscape u mouse_seed fox_seed height width g0).1).mouse c = 0 ∧
    ((stepSim landscape num_neighbors mouse_rates fox_rates delta_t height width)^[n]
        (initSimState landscape u mouse_seed fox_seed height width g0).1).fox c = 0 ∧
    ((stepSim landscape num_neighbors mouse_rates fox_rates delta_t height width)^[n]
        (initSimState landscape u mouse_seed fox_seed height width g0).1).newMouse c = 0 ∧
    ((stepSim landscape num_neighbors mouse_rates fox_rates delta_t height width)^[n]
        (initSimState landscape u mouse_seed fox_seed height width g0).1).newFox c = 0 := by
  have init0 : ∀ (seed : ℤ) (g : RState),
      (initialize_density_array landscape u seed height width g).1 c = 0 := by
    intro seed g
    unfold initialize_density_array
    by_cases hc : c ∈ cellsRM height width
    · exact initCell_foldl_water landscape u _ _ c hc hw
    · rw [initCell_foldl_notmem landscape u _ _ c hc]
      simp [hw]
  induction n with
  | zero =>
    simp only [Function.iterate_zero, id_eq, initSimState]
    exact ⟨init0 _ _, init0 _ _, init0 _ _, init0 _ _⟩
  | succ n ih =>
    rw [Function.iterate_succ_apply']
    obtain ⟨ih1, ih2, ih3, ih4⟩ := ih
    set s := (stepSim landscape num_neighbors mouse_rates fox_rates delta_t height width)^[n]
      (initSimState landscape u mouse_seed fox_seed height width g0).1
    obtain ⟨hk1, hk2⟩ := foldl_updateCell_apply landscape s.mouse s.fox num_neighbors
      mouse_rates fox_rates delta_t (cellsRM height width) (s.newMouse, s.newFox) c
    have hcond : ¬(c ∈ cellsRM height width ∧ landscape c ≠ 0) := by
      intro h
      exact h.2 hw
    refine ⟨?_, ?_, ih1, ih2⟩
    · show (update_densities landscape s.mouse s.fox num_neighbors mouse_rates
        fox_rates delta_t height width (s.newMouse, s.newFox)).1 c = 0
      unfold update_densities
      rw [hk1, if_neg hcond]
      exact ih3
    · show (update_densities landscape s.mouse s.fox num_neighbors mouse_rates
        fox_rates delta_t height width (s.newMouse, s.newFox)).2 c = 0
      unfold update_densities
      rw [hk2, if_neg hcond]
      exact ih4

/-- Witness for C2: on the 1×1 all-land grid, after one step, the halo
cell `(0, 0)` (mask 0) holds density 0 in all four buffers. -/
theorem C2_water_density_zero_witness :
    ((stepSim (fun c => if c = (1, 1) then 1 else 0) (fun _ => 0) ⟨1, 1, 1⟩ ⟨1, 1, 1⟩ 1 1 1)^[1]
        (initSimState (fun c => if c = (1, 1) then 1 else 0) (fun _ _ => 1) 1 1 1 1 (0, 0)).1).mouse (0, 0) = 0 ∧
    ((stepSim (fun c => if c = (1, 1) then 1 else 0) (fun _ => 0) ⟨1, 1, 1⟩ ⟨1, 1, 1⟩ 1 1 1)^[1]
        (initSimState (fun c => if c = (1, 1) then 1 else 0) (fun _ _ => 1) 1 1 1 1 (0, 0)).1).fox (0, 0) = 0 ∧
    ((stepSim (fun c => if c = (1, 1) then 1 else 0) (fun _ => 0) ⟨1, 1, 1⟩ ⟨1, 1, 1⟩ 1 1 1)^[1]
        (initSimState (fun c => if c = (1, 1) then 1 else 0) (fun _ _ => 1) 1 1 1 1 (0, 0)).1).newMouse (0, 0) = 0 ∧
    ((stepSim (fun c => if c = (1, 1) then 1 else 0) (fun _ => 0) ⟨1, 1, 1⟩ ⟨1, 1, 1⟩ 1 1 1)^[1]
        (initSimState (fun c => if c = (1, 1) then 1 else 0) (fun _ _ => 1) 1 1 1 1 (0, 0)).1).newFox (0, 0) = 0 :=
  C2_water_density_zero (fun c => if c = (1, 1) then 1 else 0) (fun _ => 0)
    (fun _ _ => 1) 1 1 ⟨1, 1, 1⟩ ⟨1, 1, 1⟩ 1 1 1 (0, 0) 1 (0, 0) (by decide)

theorem clamp_nonneg (v : ℚ) : 0 ≤ (if v < 0 then 0 else v) := by
  by_cases h : v < 0
  · simp [h]
  · push_neg at h
    simpa [not_lt.mpr h] using h

/-- C3 counterexample.  The kernel never touches non-land cells, so it
does not restore non-negativity there: on the 1×1 all-water grid, with
every current density and incoming next-buffer value `-1`, the
next-buffer value at the (water) cell `(1,1)` is still `-1 < 0` after
the kernel runs — the claim "after every kernel invocation every cell of
both next-density buffers is ≥ 0, for arbitrary current densities" is
false. -/
theorem C3_counterexample :
    (update_densities (fun _ => 0) (fun _ => -1) (fun _ => -1) (fun _ => 0)
        ⟨1, 1, 1⟩ ⟨1, 1, 1⟩ 1 1 1 (fun _ => -1, fun _ => -1)).1 (1, 1) = -1 ∧
    ¬ (0 : ℚ) ≤ -1 ∧
    (update_densities (fun _ => 0) (fun _ => -1) (fun _ => -1) (fun _ => 0)
        ⟨1, 1, 1⟩ ⟨1, 1, 1⟩ 1 1 1 (fun _ => -1, fun _ => -1)).2 (1, 1) = -1 := by
  refine ⟨?_, by norm_num, ?_⟩ <;> decide

/-- C3 amended.  After a kernel invocation, every cell at which the
incoming next buffer was ≥ 0 is ≥ 0, for arbitrary rate values, time
step and current densities: every interior land cell is overwritten with
a value the clamp makes ≥ 0 unconditionally, and every other cell keeps
its previous (≥ 0 by hypothesis) next-buffer value. -/
theorem C3_amended_clamp_nonneg (landscape : IGrid) (md fd : Buf) (nn : IGrid)
    (mr fr : Rates) (dt : ℚ) (height width : ℕ) (st : Buf × Buf) (c : Cell)
    (h1 : 0 ≤ st.1 c) (h2 : 0 ≤ st.2 c) :
    0 ≤ (update_densities landscape md fd nn mr fr dt height width st).1 c ∧
    0 ≤ (update_densities landscape md fd nn mr fr dt height width st).2 c := by
  obtain ⟨hk1, hk2⟩ := foldl_updateCell_apply landscape md fd nn mr fr dt
    (cellsRM height width) st c
  unfold update_densities
  rw [hk1, hk2]
  constructor
  · by_cases h : c ∈ cellsRM height width ∧ landscape c ≠ 0
    · rw [if_pos h]
      exact clamp_nonneg _
    · rwa [if_neg h]
  · by_cases h : c ∈ cellsRM height width ∧ landscape c ≠ 0
    · rw [if_pos h]
      exact clamp_nonneg _
    · rwa [if_neg h]

/-- Witness for the amended C3, on a 1×1 all-land grid with zero-filled
incoming next buffers. -/
theorem C3_amended_clamp_nonneg_witness :
    (0 : ℚ) ≤ (fun (_ : Cell) => (0 : ℚ), fun (_ : Cell) => (0 : ℚ)).1 (1, 1) ∧
    (0 ≤ (update_densities (fun _ => 1) (fun _ => 1) (fun _ => 1) (fun _ => 0)
        ⟨1, 1, 1⟩ ⟨1, 1, 1⟩ 1 1 1 (fun _ => 0, fun _ => 0)).1 (1, 1) ∧
     0 ≤ (update_densities (fun _ => 1) (fun _ => 1) (fun _ => 1) (fun _ => 0)
        ⟨1, 1, 1⟩ ⟨1, 1, 1⟩ 1 1 1 (fun _ => 0, fun _ => 0)).2 (1, 1)) :=
  ⟨le_refl 0,
    C3_amended_clamp_nonneg (fun _ => 1) (fun _ => 1) (fun _ => 1) (fun _ => 0)
      ⟨1, 1, 1⟩ ⟨1, 1, 1⟩ 1 1 1 (fun _ => 0, fun _ => 0) (1, 1)
      (le_refl 0) (le_refl 0)⟩

/-- The NumPy row assignment `landscape[row, 1:width+1] = [int(i) for i in
line.split()]`: writes the tokens into columns `1..width` of row
`rowIdx`.  A one-token row broadcasts its single value across the whole
slice (NumPy broadcasting of shape `(1,)` to `(width,)`). -/
def assignRow (width : ℕ) (grid : IGrid) (rowIdx : ℕ) (row : List ℤ) : IGrid :=
  fun c =>
    if c.1 = rowIdx ∧ 1 ≤ c.2 ∧ c.2 ≤ width then
      (if row.length = 1 then row.headI else row.getD (c.2 - 1) 0)
    else grid c

/-- The row loop of `read_landscape` (`for row, line in enumerate(file,
start=1)`), over rows whose tokens already parsed as integers.  Writing
row `rowIdx` raises `IndexError` when `rowIdx > height + 1` (beyond the
bottom halo row) and a broadcast `ValueError` when the token count is
neither `width` nor `1`; otherwise the row is assigned and the loop
continues. -/
def readRows (width height : ℕ) (grid : IGrid) (rowIdx : ℕ) :
    List (List ℤ) → Except String IGrid
  | [] => Except.ok grid
  | row :: rest =>
    if height + 1 < rowIdx then
      Except.error "IndexError: index out of bounds"
    else if row.length ≠ width ∧ row.length ≠ 1 then
      Except.error "ValueError: could not broadcast input array"
    else readRows width height (assignRow width grid rowIdx row) (rowIdx + 1) rest

/-- Model of `read_landscape`, over a tokenised description: a header line (list
of integers) and data rows (lists of integers).  Checks the header has
exactly two values and positive dimensions, allocates the zeroed
halo-padded grid, and runs the row loop from row 1. -/
def read_landscape (header : List ℤ) (rows : List (List ℤ)) :
    Except String (IGrid × ℕ × ℕ) :=
  match header with
  | [w, h] =>
    if w ≤ 0 ∨ h ≤ 0 then
      Except.error "Landscape dimensions must be positive."
    else
      match readRows w.toNat h.toNat (fun _ => 0) 1 rows with
      | Except.ok grid => Except.ok (grid, w.toNat, h.toNat)
      | Except.error e => Except.error e
  | _ => Except.error "ValueError: header must be exactly two integers"

/-- Whether a `read_landscape` result is the error case. -/
def resultIsError : Except String (IGrid × ℕ × ℕ) → Bool
  | Except.error _ => true
  | Except.ok _ => false

/-- The format contract the spec states for a landscape description: header
`[width, height]` with positive dimensions, exactly `height` data rows,
each of exactly `width` tokens, every token `0` or `1`. -/
def conformingDescription (header : List ℤ) (rows : List (List ℤ)) : Prop :=
  header.length = 2 ∧ 0 < header.getD 0 0 ∧ 0 < header.getD 1 0 ∧
  (rows.length : ℤ) = header.getD 1 0 ∧
  (∀ row ∈ rows, (row.length : ℤ) = header.getD 0 0) ∧
  (∀ row ∈ rows, ∀ t ∈ row, t = 0 ∨ t = 1)

instance (header : List ℤ) (rows : List (List ℤ)) :
    Decidable (conformingDescription header rows) := by
  unfold conformingDescription; infer_instance

/-- The condition under which `read_landscape` actually fails: bad
header, non-positive dimension, or some data row that either lies beyond
the bottom halo row (0-based index `> height`) or has a token count that
is neither `width` nor `1`. -/
def actualFailCond (header : List ℤ) (rows : List (List ℤ)) : Prop :=
  header.length ≠ 2 ∨ header.getD 0 0 ≤ 0 ∨ header.getD 1 0 ≤ 0 ∨
  ∃ i ∈ List.range rows.length,
    ((header.getD 1 0).toNat < i ∨
      (i ≤ (header.getD 1 0).toNat ∧
        (rows.getD i []).length ≠ (header.getD 0 0).toNat ∧
        (rows.getD i []).length ≠ 1))

instance (header : List ℤ) (rows : List (List ℤ)) :
    Decidable (actualFailCond header rows) := by
  unfold actualFailCond; infer_instance

/-- C4 counterexample.  The description with header `1 1` and single row
`2` violates the format (the token is neither `0` nor `1`), yet
`read_landscape` accepts it — it never validates token values — so
"fails exactly when the description violates the format" is false. -/
theorem C4_counterexample :
    resultIsError (read_landscape [1, 1] [[2]]) = false ∧
    ¬ conformingDescription [1, 1] [[2]] := by
  constructor
  · rfl
  · decide

/-- Whether an `Except` result is the error case. -/
def isErrB {α : Type} : Except String α → Bool
  | Except.error _ => true
  | Except.ok _ => false

theorem readRows_error_iff (width height : ℕ) (rows : List (List ℤ)) :
    ∀ (grid : IGrid) (rowIdx : ℕ),
      isErrB (readRows width height grid rowIdx rows) = true ↔
        ∃ i ∈ List.range rows.length,
          (height + 1 < rowIdx + i ∨
            (rowIdx + i ≤ height + 1 ∧ (rows.getD i []).length ≠ width ∧
              (rows.getD i []).length ≠ 1)) := by
  induction rows with
  | nil => intro grid rowIdx; simp [readRows, isErrB]
  | cons row rest ih =>
    intro grid rowIdx
    unfold readRows
    by_cases h1 : height + 1 < rowIdx
    · rw [if_pos h1]
      simp only [isErrB, true_iff]
      exact ⟨0, by simp, Or.inl (by omega)⟩
    · rw [if_neg h1]
      by_cases h2 : row.length ≠ width ∧ row.length ≠ 1
      · rw [if_pos h2]
        simp only [isErrB, true_iff]
        refine ⟨0, by simp, Or.inr ⟨by omega, ?_, ?_⟩⟩
        · simpa using h2.1
        · simpa using h2.2
      · rw [if_neg h2]
        rw [ih (assignRow width grid rowIdx row) (rowIdx + 1)]
        constructor
        · rintro ⟨j, hj, hP⟩
          refine ⟨j + 1, ?_, ?_⟩
          · simp only [List.mem_range, List.length_cons] at hj ⊢
            omega
          · rcases hP with hh | ⟨ha, hb, hc⟩
            · exact Or.inl (by omega)
            · refine Or.inr ⟨by omega, ?_, ?_⟩
              · simpa [List.getD_cons_succ] using hb
              · simpa [List.getD_cons_succ] using hc
        · rintro ⟨i, hi, hP⟩
          match i with
          | 0 =>
            exfalso
            rcases hP with hh | ⟨ha, hb, hc⟩
            · omega
            · simp only [List.getD_cons_zero] at hb hc
              exact h2 ⟨hb, hc⟩
          | Nat.succ j =>
            refine ⟨j, ?_, ?_⟩
            · simp only [List.mem_range, List.length_cons] at hi ⊢
              omega
            · rcases hP with hh | ⟨ha, hb, hc⟩
              · exact Or.inl (by omega)
              · refine Or.inr ⟨by omega, ?_, ?_⟩
                · simpa [List.getD_cons_succ] using hb
                · simpa [List.getD_cons_succ] using hc

/-- C4 amended.  Over integer-token descriptions, `read_landscape` fails
exactly when: the header is not exactly two values, a dimension is
non-positive, some data row lies beyond the bottom halo row (more than
`height + 1` rows), or some data row among the first `height + 1` has a
token count that is neither `width` nor `1`.  It does not check token
values, accepts fewer than `height` rows, accepts one extra row (written
into the halo), and accepts one-token rows (broadcast across the
width). -/
theorem C4_amended_error_iff (header : List ℤ) (rows : List (List ℤ)) :
    resultIsError (read_landscape header rows) = true ↔
      actualFailCond header rows := by
  have heq : ∀ (w h : ℤ),
      (∃ i ∈ List.range rows.length,
        (h.toNat + 1 < 1 + i ∨ (1 + i ≤ h.toNat + 1 ∧
          (rows.getD i []).length ≠ w.toNat ∧ (rows.getD i []).length ≠ 1))) ↔
      (∃ i ∈ List.range rows.length,
        (h.toNat < i ∨ (i ≤ h.toNat ∧
          (rows.getD i []).length ≠ w.toNat ∧ (rows.getD i []).length ≠ 1))) := by
    intro w h
    constructor <;> rintro ⟨i, hi, hP⟩ <;> refine ⟨i, hi, ?_⟩ <;>
      [rcases hP with hh | ⟨a, b, c⟩; rcases hP with hh | ⟨a, b, c⟩] <;>
      [exact Or.inl (by omega); exact Or.inr ⟨by omega, b, c⟩;
       exact Or.inl (by omega); exact Or.inr ⟨by omega, b, c⟩]
  match header with
  | [] => simp [read_landscape, resultIsError, actualFailCond]
  | [w] => simp [read_landscape, resultIsError, actualFailCond]
  | w :: h :: t :: rest2 => simp [read_landscape, resultIsError, actualFailCond]
  | [w, h] =>
    simp only [read_landscape]
    by_cases hd : w ≤ 0 ∨ h ≤ 0
    · rw [if_pos hd]
      simp only [resultIsError, true_iff, actualFailCond]
      rcases hd with hh | hh
      · exact Or.inr (Or.inl (by simpa using hh))
      · exact Or.inr (Or.inr (Or.inl (by simpa using hh)))
    · rw [if_neg hd]
      push_neg at hd
      have hiff := readRows_error_iff w.toNat h.toNat rows (fun _ => 0) 1
      have hone : ∀ i : ℕ, 1 + i = i + 1 := fun i => by omega
      rcases hr : readRows w.toNat h.toNat (fun _ => 0) 1 rows with e | grid
      · simp only [resultIsError, true_iff, actualFailCond]
        refine Or.inr (Or.inr (Or.inr ?_))
        have : isErrB (Except.error e : Except String IGrid) = true := rfl
        have hx := hiff.mp (by rw [hr]; exact this)
        simpa [List.getD_cons_zero, List.getD_cons_succ] using (heq w h).mp hx
      · simp only [resultIsError, actualFailCond]
        constructor
        · intro hfalse
          exact absurd hfalse (by simp)
        · intro hfc
          exfalso
          rcases hfc with hh | hh | hh | hh
          · exact hh (by simp)
          · simp only [List.getD_cons_zero] at hh
            omega
          · simp only [List.getD_cons_succ, List.getD_cons_zero] at hh
            omega
          · have hx : isErrB (readRows w.toNat h.toNat (fun _ => 0) 1 rows) = true := by
              refine hiff.mpr ((heq w h).mpr ?_)
              simpa [List.getD_cons_zero, List.getD_cons_succ] using hh
            rw [hr] at hx
            simp [isErrB] at hx

/-- Model of `np.sum(density)`: sum over every cell of the halo-padded array. -/
def np_sum (height width : ℕ) (density : Buf) : ℚ :=
  ((paddedCells height width).map density).sum

/-- Model of `calculate_averages`:
`np.sum(density) / num_land_squares if num_land_squares else 0`. -/
def calculate_averages (height width : ℕ) (density : Buf) (num_land_squares : ℕ) : ℚ :=
  if num_land_squares ≠ 0 then np_sum height width density / (num_land_squares : ℚ)
  else 0

/-- Model of `np.count_nonzero(landscape)`: the number of non-zero cells of the
halo-padded mask — the `num_land_squares` of `simulate`. -/
def count_nonzero (height width : ℕ) (g : IGrid) : ℕ :=
  (paddedCells height width).countP (fun c => decide (g c ≠ 0))

/-- The number of `1` tokens in the data rows of a landscape description. -/
def onesCount (rows : List (List ℤ)) : ℕ :=
  (rows.map (fun row => row.count 1)).sum

theorem range_map_getD {α : Type} (l : List α) (d : α) :
    (List.range l.length).map (fun i => l.getD i d) = l := by
  induction l with
  | nil => rfl
  | cons t rest ih =>
    rw [List.length_cons, List.range_succ_eq_map, List.map_cons, List.map_map]
    have hcomp : ((fun i => (t :: rest).getD i d) ∘ Nat.succ) = fun i => rest.getD i d := by
      funext i
      simp [List.getD_cons_succ]
    rw [List.getD_cons_zero, hcomp, ih]

theorem countP_flatMap_sum {α β : Type} (l : List α) (f : α → List β) (p : β → Bool) :
    (l.flatMap f).countP p = (l.map (fun a => (f a).countP p)).sum := by
  induction l with
  | nil => rfl
  | cons a t ih =>
    rw [List.flatMap_cons, List.countP_append, List.map_cons, List.sum_cons, ih]

theorem sum_map_land_only (l : List Cell) (density : Buf) (p : Cell → Bool)
    (hz : ∀ c ∈ l, p c = false → density c = 0) :
    (l.map density).sum = ((l.filter p).map density).sum := by
  induction l with
  | nil => rfl
  | cons a t ih =>
    have iht := ih fun c hc h => hz c (List.mem_cons_of_mem a hc) h
    rw [List.map_cons, List.sum_cons]
    by_cases hp : p a
    · rw [List.filter_cons_of_pos hp, List.map_cons, List.sum_cons, iht]
    · rw [List.filter_cons_of_neg hp, hz a (List.mem_cons_self a t) (by simpa using hp),
        zero_add, iht]

theorem headI_eq_getD (row : List ℤ) : row.headI = row.getD 0 0 := by
  cases row <;> rfl

theorem readRows_ok_apply (width height : ℕ) (rows : List (List ℤ)) :
    ∀ (grid : IGrid) (rowIdx : ℕ) (g : IGrid),
      readRows width height grid rowIdx rows = Except.ok g →
      ∀ c : Cell,
        g c = if rowIdx ≤ c.1 ∧ c.1 < rowIdx + rows.length ∧ 1 ≤ c.2 ∧ c.2 ≤ width then
            (if (rows.getD (c.1 - rowIdx) []).length = 1 then
              (rows.getD (c.1 - rowIdx) []).headI
             else (rows.getD (c.1 - rowIdx) []).getD (c.2 - 1) 0)
          else grid c := by
  induction rows with
  | nil =>
    intro grid rowIdx g hok c
    simp only [readRows] at hok
    injection hok with h
    subst h
    rw [if_neg]
    rintro ⟨ha, hb, -⟩
    simp only [List.length_nil] at hb
    omega
  | cons row rest ih =>
    intro grid rowIdx g hok c
    unfold readRows at hok
    by_cases h1 : height + 1 < rowIdx
    · rw [if_pos h1] at hok
      cases hok
    · rw [if_neg h1] at hok
      by_cases h2 : row.length ≠ width ∧ row.length ≠ 1
      · rw [if_pos h2] at hok
        cases hok
      · rw [if_neg h2] at hok
        rw [ih (assignRow width grid rowIdx row) (rowIdx + 1) g hok c]
        by_cases hx : rowIdx + 1 ≤ c.1 ∧ c.1 < rowIdx + 1 + rest.length ∧ 1 ≤ c.2 ∧ c.2 ≤ width
        · have hcond : rowIdx ≤ c.1 ∧ c.1 < rowIdx + (row :: rest).length ∧
              1 ≤ c.2 ∧ c.2 ≤ width := by
            simp only [List.length_cons]
            omega
          have hc1 : c.1 - rowIdx = (c.1 - (rowIdx + 1)) + 1 := by omega
          rw [if_pos hx, if_pos hcond, hc1, List.getD_cons_succ]
        · rw [if_neg hx]
          by_cases hy : rowIdx ≤ c.1 ∧ c.1 < rowIdx + (row :: rest).length ∧
              1 ≤ c.2 ∧ c.2 ≤ width
          · have hcr : c.1 = rowIdx := by
              simp only [List.length_cons] at hy
              omega
            rw [if_pos hy]
            unfold assignRow
            rw [if_pos ⟨hcr, hy.2.2⟩]
            have hz : c.1 - rowIdx = 0 := by omega
            rw [hz, List.getD_cons_zero]
          · rw [if_neg hy]
            unfold assignRow
            rw [if_neg]
            rintro ⟨he, hcols⟩
            apply hy
            refine ⟨le_of_eq he.symm, ?_, hcols⟩
            simp only [List.length_cons]
            omega

theorem countP_range_shift (n : ℕ) (p : ℕ → Bool) (h0 : p 0 = false)
    (hn : p (n + 1) = false) :
    (List.range (n + 2)).countP p = (List.range n).countP (fun i => p (i + 1)) := by
  rw [List.range_succ_eq_map, List.countP_cons, h0, List.countP_map]
  have h1 : List.range (n + 1) = List.range n ++ [n] := List.range_succ n
  rw [h1, List.countP_append]
  simp only [List.countP_cons, List.countP_nil, Function.comp]
  simp only [hn, Bool.false_eq_true, if_false, Nat.add_zero, Nat.zero_add]
  rfl

theorem sum_range_shift (n : ℕ) (f : ℕ → ℕ) (h0 : f 0 = 0) (hn : f (n + 1) = 0) :
    ((List.range (n + 2)).map f).sum = ((List.range n).map (fun i => f (i + 1))).sum := by
  rw [List.range_succ_eq_map, List.map_cons, List.sum_cons, h0, zero_add, List.map_map]
  have h1 : List.range (n + 1) = List.range n ++ [n] := List.range_succ n
  rw [h1, List.map_append, List.sum_append]
  simp only [Function.comp, List.map_cons, List.map_nil, List.sum_cons, List.sum_nil]
  simp only [hn, Nat.add_zero, Nat.zero_add]
  rfl

theorem countP_range_getD (row : List ℤ) (p : ℤ → Bool) :
    (List.range row.length).countP (fun i => p (row.getD i 0)) = row.countP p := by
  have h := range_map_getD row 0
  calc (List.range row.length).countP (fun i => p (row.getD i 0))
      = ((List.range row.length).map (fun i => row.getD i 0)).countP p := by
        rw [List.countP_map]
        rfl
    _ = row.countP p := by rw [h]

theorem row_window_count (row : List ℤ) (w : ℕ) (hlen : row.length = w)
    (hbin : ∀ t ∈ row, t = 0 ∨ t = 1) :
    (List.range (w + 2)).countP
      (fun y => decide ((if 1 ≤ y ∧ y ≤ w then
        (if row.length = 1 then row.headI else row.getD (y - 1) 0) else 0) ≠ 0)) =
    row.count 1 := by
  have htok : ∀ y : ℕ, 1 ≤ y → y ≤ w →
      (if row.length = 1 then row.headI else row.getD (y - 1) 0) = row.getD (y - 1) 0 := by
    intro y hy1 hy2
    by_cases hone : row.length = 1
    · rw [if_pos hone, headI_eq_getD]
      have : y = 1 := by omega
      subst this
      rfl
    · rw [if_neg hone]
  rw [countP_range_shift]
  · have hcg : ∀ i ∈ List.range w,
        (fun i => decide ((if 1 ≤ i + 1 ∧ i + 1 ≤ w then
          (if row.length = 1 then row.headI else row.getD (i + 1 - 1) 0) else 0) ≠ 0)) i = true ↔
        (fun i => decide (row.getD i 0 ≠ 0)) i = true := by
      intro i hi
      simp only [List.mem_range] at hi
      have hc : 1 ≤ i + 1 ∧ i + 1 ≤ w := by omega
      show decide ((if 1 ≤ i + 1 ∧ i + 1 ≤ w then
          (if row.length = 1 then row.headI else row.getD (i + 1 - 1) 0) else 0) ≠ 0) = true ↔
        decide (row.getD i 0 ≠ 0) = true
      rw [if_pos hc, htok (i + 1) hc.1 hc.2]
      simp only [Nat.add_sub_cancel]
    rw [List.countP_congr hcg]
    have h1 : (List.range w).countP (fun i => decide (row.getD i 0 ≠ 0)) = row.countP
        (fun t => decide (t ≠ 0)) := by
      rw [← hlen]
      exact countP_range_getD row (fun t => decide (t ≠ 0))
    rw [h1, List.count_eq_countP]
    apply List.countP_congr
    intro t ht
    rcases hbin t ht with rfl | rfl <;> simp
  · simp
  · have : ¬ (1 ≤ w + 1 ∧ w + 1 ≤ w) := by omega
    simp [this]

theorem conforming_read_count (header : List ℤ) (rows : List (List ℤ))
    (g : IGrid) (w2 h2 : ℕ)
    (hconf : conformingDescription header rows)
    (hread : read_landscape header rows = Except.ok (g, w2, h2)) :
    count_nonzero h2 w2 g = onesCount rows := by
  obtain ⟨hlen2, hw, hh, hrows, hrowlen, hbin⟩ := hconf
  match header, hlen2 with
  | [a, b], _ =>
    simp only [List.getD_cons_zero, List.getD_cons_succ] at hw hh hrows hrowlen
    simp only [read_landscape] at hread
    rw [if_neg (by omega)] at hread
    rcases hrr : readRows a.toNat b.toNat (fun _ => 0) 1 rows with e | g2
    · rw [hrr] at hread
      cases hread
    · rw [hrr] at hread
      injection hread with hp
      simp only [Prod.mk.injEq] at hp
      obtain ⟨rfl, rfl, rfl⟩ := hp
      have hgc := readRows_ok_apply a.toNat b.toNat rows (fun _ => 0) 1 g2 hrr
      have hrl : rows.length = b.toNat := by omega
      unfold count_nonzero paddedCells
      rw [countP_flatMap_sum]
      have hinner : ∀ x : ℕ,
          ((List.range (a.toNat + 2)).map (fun y => ((x, y) : Cell))).countP
            (fun c => decide (g2 c ≠ 0)) =
          (List.range (a.toNat + 2)).countP (fun y => decide (g2 (x, y) ≠ 0)) := by
        intro x
        rw [List.countP_map]
        rfl
      have hmapc : (List.range (b.toNat + 2)).map
          (fun x => ((List.range (a.toNat + 2)).map (fun y => ((x, y) : Cell))).countP
            (fun c => decide (g2 c ≠ 0))) =
          (List.range (b.toNat + 2)).map
          (fun x => (List.range (a.toNat + 2)).countP (fun y => decide (g2 (x, y) ≠ 0))) := by
        apply List.map_congr_left
        intro x _
        exact hinner x
      rw [hmapc]
      rw [sum_range_shift]
      · have hrowc : ∀ i ∈ List.range b.toNat,
            (fun i => (List.range (a.toNat + 2)).countP
              (fun y => decide (g2 (i + 1, y) ≠ 0))) i =
            (fun i => (rows.getD i []).count 1) i := by
          intro i hi
          simp only [List.mem_range] at hi
          show (List.range (a.toNat + 2)).countP (fun y => decide (g2 (i + 1, y) ≠ 0)) =
            (rows.getD i []).count 1
          have hrowmem : rows.getD i [] ∈ rows := by
            rw [List.getD_eq_getElem?_getD]
            have : rows[i]? = some rows[i] := List.getElem?_eq_getElem (by omega)
            rw [this]
            exact List.getElem_mem _
          have hlenr : (rows.getD i []).length = a.toNat := by
            have := hrowlen _ hrowmem
            omega
          have hpc : ∀ y ∈ List.range (a.toNat + 2),
              (fun y => decide (g2 (i + 1, y) ≠ 0)) y = true ↔
              (fun y => decide ((if 1 ≤ y ∧ y ≤ a.toNat then
                (if (rows.getD i []).length = 1 then (rows.getD i []).headI
                 else (rows.getD i []).getD (y - 1) 0) else 0) ≠ 0)) y = true := by
            intro y _
            have hii : i + 1 - 1 = i := by omega
            have hgxy : g2 (i + 1, y) =
                if 1 ≤ i + 1 ∧ i + 1 < 1 + rows.length ∧ 1 ≤ y ∧ y ≤ a.toNat then
                  (if (rows.getD i []).length = 1 then (rows.getD i []).headI
                   else (rows.getD i []).getD (y - 1) 0)
                else 0 := by
              have h0 := hgc (i + 1, y)
              simpa [hii] using h0
            show decide (g2 (i + 1, y) ≠ 0) = true ↔
              decide ((if 1 ≤ y ∧ y ≤ a.toNat then
                (if (rows.getD i []).length = 1 then (rows.getD i []).headI
                 else (rows.getD i []).getD (y - 1) 0) else 0) ≠ 0) = true
            rw [hgxy]
            by_cases hcol : 1 ≤ y ∧ y ≤ a.toNat
            · rw [if_pos ⟨by omega, by omega, hcol⟩, if_pos hcol]
            · rw [if_neg (fun hx => hcol hx.2.2), if_neg hcol]
          rw [List.countP_congr hpc]
          exact row_window_count (rows.getD i []) a.toNat hlenr
            (fun t ht => hbin _ hrowmem t ht)
        rw [List.map_congr_left hrowc]
        unfold onesCount
        rw [← hrl]
        have : (List.range rows.length).map (fun i => (rows.getD i []).count 1) =
            rows.map (fun row => row.count 1) := by
          have h1 := range_map_getD rows []
          calc (List.range rows.length).map (fun i => (rows.getD i []).count 1)
              = ((List.range rows.length).map (fun i => rows.getD i [])).map
                  (fun row => row.count 1) := by rw [List.map_map]; rfl
            _ = rows.map (fun row => row.count 1) := by rw [h1]
        rw [this]
      · apply List.countP_eq_zero.mpr
        intro y _
        have := hgc (0, y)
        simp only at this
        rw [if_neg (by rintro ⟨h1, -⟩; omega)] at this
        simp [this]
      · apply List.countP_eq_zero.mpr
        intro y _
        have := hgc (b.toNat + 1, y)
        simp only at this
        rw [if_neg (by rintro ⟨-, h2x, -⟩; omega)] at this
        simp [this]

/-- C6.  `calculate_averages` divides the whole-array sum by the land
count when the count is non-zero — which equals the land-only mean when
water/halo cells carry density 0 — and is exactly 0 (guarded, no
division) when the count is zero; and `num_land_squares`
(`np.count_nonzero(landscape)`) equals the number of `1` tokens of a
conforming landscape file. -/
theorem C6_averages (height width : ℕ) (d : Buf) (num : ℕ) (g : IGrid)
    (header : List ℤ) (rows : List (List ℤ)) (g2 : IGrid) (w2 h2 : ℕ)
    (hz : ∀ c : Cell, g c = 0 → d c = 0)
    (hconf : conformingDescription header rows)
    (hread : read_landscape header rows = Except.ok (g2, w2, h2)) :
    (num ≠ 0 →
      calculate_averages height width d num = np_sum height width d / (num : ℚ)) ∧
    (np_sum height width d =
      (((paddedCells height width).filter (fun c => decide (g c ≠ 0))).map d).sum) ∧
    (num = 0 → calculate_averages height width d num = 0) ∧
    count_nonzero h2 w2 g2 = onesCount rows := by
  refine ⟨?_, ?_, ?_, ?_⟩
  · intro h
    unfold calculate_averages
    rw [if_pos h]
  · unfold np_sum
    apply sum_map_land_only
    intro c _ hfalse
    apply hz
    have := of_decide_eq_false hfalse
    exact not_not.mp this
  · intro h
    unfold calculate_averages
    rw [if_neg (by simp [h])]
  · exact conforming_read_count header rows g2 w2 h2 hconf hread

/-- Witness for C6: a 1×1 all-land landscape, density 2 on the land
cell. -/
theorem C6_averages_witness :
    ((1 : ℕ) ≠ 0 →
      calculate_averages 1 1 (fun c => if c = (1, 1) then 2 else 0) 1 =
        np_sum 1 1 (fun c => if c = (1, 1) then 2 else 0) / ((1 : ℕ) : ℚ)) ∧
    (np_sum 1 1 (fun c => if c = (1, 1) then 2 else 0) =
      (((paddedCells 1 1).filter
          (fun c => decide ((if c = (1, 1) then (1 : ℤ) else 0) ≠ 0))).map
        (fun c => if c = (1, 1) then (2 : ℚ) else 0)).sum) ∧
    ((1 : ℕ) = 0 →
      calculate_averages 1 1 (fun c => if c = (1, 1) then 2 else 0) 1 = 0) ∧
    count_nonzero 1 1 (assignRow 1 (fun _ => 0) 1 [1]) = onesCount [[1]] :=
  C6_averages 1 1 (fun c => if c = (1, 1) then 2 else 0) 1
    (fun c => if c = (1, 1) then 1 else 0) [1, 1] [[1]]
    (assignRow 1 (fun _ => 0) 1 [1]) 1 1
    (fun c h => by
      have h2 : (if c = (1, 1) then (1 : ℤ) else 0) = 0 := h
      show (if c = (1, 1) then (2 : ℚ) else 0) = 0
      by_cases hc : c = (1, 1)
      · rw [if_pos hc] at h2
        exact absurd h2 (by decide)
      · rw [if_neg hc])
    (by decide)
    rfl

/-- Membership in the padded index list. -/
theorem paddedCells_mem (height width : ℕ) (c : Cell) :
    c ∈ paddedCells height width ↔ c.1 < height + 2 ∧ c.2 < width + 2 := by
  unfold paddedCells
  constructor
  · intro h
    simp only [List.mem_flatMap, List.mem_map, List.mem_range] at h
    obtain ⟨x, hx, y, hy, rfl⟩ := h
    exact ⟨hx, hy⟩
  · intro h
    simp only [List.mem_flatMap, List.mem_map, List.mem_range]
    exact ⟨c.1, h.1, c.2, h.2, by obtain ⟨x, y⟩ := c; rfl⟩

/-- Model of `np.max(density)`: the maximum over every cell of the halo-padded
array. -/
def np_max (height width : ℕ) (density : Buf) : ℚ :=
  ((paddedCells height width).map density).foldl max (density (0, 0))

theorem foldl_max_le_init {α : Type} [LinearOrder α] (l : List α) (b : α) :
    b ≤ l.foldl max b := by
  induction l generalizing b with
  | nil => exact le_refl b
  | cons a t ih => exact le_trans (le_max_left b a) (ih (max b a))

theorem mem_le_foldl_max {α : Type} [LinearOrder α] (l : List α) (b x : α) (hx : x ∈ l) :
    x ≤ l.foldl max b := by
  induction l generalizing b with
  | nil => cases hx
  | cons a t ih =>
    rcases List.mem_cons.mp hx with rfl | h
    · exact le_trans (le_max_right b x) (foldl_max_le_init t (max b x))
    · exact ih (max b a) h

/-- Python `int()` conversion of a rational: truncation toward zero. -/
def truncInt (q : ℚ) : ℤ :=
  if 0 ≤ q then ⌊q⌋ else -⌊-q⌋

/-- Model of `generate_color_maps`: two `height × width` integer maps (no halo),
zero-initialised; for every land cell `(x, y)` of the grid the map cell
`(x-1, y-1)` gets `int(density/max * 255)`, or `0` when the species
maximum is zero (`if max_mice_density else 0`). -/
def generate_color_maps (mouse_density fox_density : Buf) (landscape : IGrid)
    (max_mice_density max_fox_density : ℚ) (height width : ℕ) :
    (Cell → ℤ) × (Cell → ℤ) :=
  (fun c =>
    if c.1 < height ∧ c.2 < width ∧ landscape (c.1 + 1, c.2 + 1) ≠ 0 then
      (if max_mice_density ≠ 0 then
        truncInt (mouse_density (c.1 + 1, c.2 + 1) / max_mice_density * 255)
      else 0)
    else 0,
   fun c =>
    if c.1 < height ∧ c.2 < width ∧ landscape (c.1 + 1, c.2 + 1) ≠ 0 then
      (if max_fox_density ≠ 0 then
        truncInt (fox_density (c.1 + 1, c.2 + 1) / max_fox_density * 255)
      else 0)
    else 0)

/-- Model of `write_ppm_file`: the pixel rows the PPM body contains, in row-major
order — pixel value `(fox, mouse, 0)` on land, the fixed `(0, 200, 255)` on water, one
pixel per real grid cell (no halo). -/
def write_ppm_file (mouse_color_map fox_color_map : Cell → ℤ) (landscape : IGrid)
    (width height : ℕ) : List (ℤ × ℤ × ℤ) :=
  (List.range height).flatMap fun x =>
    (List.range width).map fun y =>
      if landscape (x + 1, y + 1) ≠ 0 then
        (fox_color_map (x, y), mouse_color_map (x, y), 0)
      else (0, 200, 255)

/-- Model of `generate_and_write_maps`: computes the per-species maximum over the
entire density array with `np.max`, builds the colour maps, and writes
the PPM pixels. -/
def generate_and_write_maps (mouse_density fox_density : Buf) (landscape : IGrid)
    (height width : ℕ) : List (ℤ × ℤ × ℤ) :=
  write_ppm_file
    (generate_color_maps mouse_density fox_density landscape
      (np_max height width mouse_density) (np_max height width fox_density)
      height width).1
    (generate_color_maps mouse_density fox_density landscape
      (np_max height width mouse_density) (np_max height width fox_density)
      height width).2
    landscape width height

theorem grid_list_length {β : Type} (height width : ℕ) (f : ℕ → ℕ → β) :
    ((List.range height).flatMap (fun x => (List.range width).map fun y => f x y)).length =
      height * width := by
  induction height with
  | zero => simp
  | succ h ih =>
    rw [List.range_succ, List.flatMap_append, List.length_append, ih]
    simp only [List.flatMap_cons, List.flatMap_nil, List.append_nil, List.length_map,
      List.length_range]
    rw [Nat.succ_mul]

theorem grid_list_getD {β : Type} (height width : ℕ) (f : ℕ → ℕ → β) (x y : ℕ)
    (hx : x < height) (hy : y < width) (d : β) :
    ((List.range height).flatMap (fun x => (List.range width).map fun y => f x y)).getD
      (x * width + y) d = f x y := by
  induction height with
  | zero => omega
  | succ h ih =>
    rw [List.range_succ, List.flatMap_append]
    by_cases hxh : x < h
    · rw [List.getD_append]
      · exact ih hxh
      · rw [grid_list_length]
        calc x * width + y < x * width + width := by omega
          _ = (x + 1) * width := (Nat.succ_mul x width).symm
          _ ≤ h * width := Nat.mul_le_mul_right width (by omega)
    · have hxeq : x = h := by omega
      subst hxeq
      rw [List.getD_append_right]
      · rw [grid_list_length, Nat.add_sub_cancel_left]
        simp only [List.flatMap_cons, List.flatMap_nil, List.append_nil]
        have hylen : y < ((List.range width).map fun y => f x y).length := by
          simpa using hy
        rw [List.getD_eq_getElem _ _ hylen]
        simp
      · rw [grid_list_length]
        omega

theorem truncInt_bounds (q : ℚ) (h0 : 0 ≤ q) (h255 : q ≤ 255) :
    0 ≤ truncInt q ∧ truncInt q ≤ 255 := by
  unfold truncInt
  rw [if_pos h0]
  constructor
  · exact Int.floor_nonneg.mpr h0
  · have := Int.floor_le_floor h255
    simpa using this

theorem ratio_bounds (v m : ℚ) (h0 : 0 ≤ v) (hvm : v ≤ m) (hm : m ≠ 0) :
    0 ≤ v / m * 255 ∧ v / m * 255 ≤ 255 := by
  have hmpos : 0 < m := lt_of_le_of_ne (le_trans h0 hvm) (Ne.symm hm)
  constructor
  · positivity
  · have h1 : v / m ≤ 1 := (div_le_one hmpos).mpr hvm
    calc v / m * 255 ≤ 1 * 255 :=
      mul_le_mul_of_nonneg_right h1 (by norm_num)
    _ = 255 := one_mul 255

/-- C7.  At a sampled step the colour scale uses `np.max` over the entire
density array per species; a zero maximum maps every cell to level 0;
otherwise a land cell maps to `int(value/max * 255)`, which lies in
`[0, 255]` for non-negative densities; and the emitted pixel is
`(fox, mouse, 0)` on land and the fixed `(0, 200, 255)` on water, one
pixel per grid cell with no halo. -/
theorem C7_visualization (md fd : Buf) (landscape : IGrid) (height width : ℕ)
    (c : Cell)
    (hm : ∀ p ∈ paddedCells height width, 0 ≤ md p)
    (hf : ∀ p ∈ paddedCells height width, 0 ≤ fd p)
    (hc1 : c.1 < height) (hc2 : c.2 < width) :
    (np_max height width md = 0 →
      (generate_color_maps md fd landscape (np_max height width md)
        (np_max height width fd) height width).1 c = 0) ∧
    (np_max height width fd = 0 →
      (generate_color_maps md fd landscape (np_max height width md)
        (np_max height width fd) height width).2 c = 0) ∧
    (landscape (c.1 + 1, c.2 + 1) ≠ 0 → np_max height width md ≠ 0 →
      (generate_color_maps md fd landscape (np_max height width md)
        (np_max height width fd) height width).1 c =
        truncInt (md (c.1 + 1, c.2 + 1) / np_max height width md * 255) ∧
      0 ≤ (generate_color_maps md fd landscape (np_max height width md)
        (np_max height width fd) height width).1 c ∧
      (generate_color_maps md fd landscape (np_max height width md)
        (np_max height width fd) height width).1 c ≤ 255) ∧
    (landscape (c.1 + 1, c.2 + 1) ≠ 0 → np_max height width fd ≠ 0 →
      (generate_color_maps md fd landscape (np_max height width md)
        (np_max height width fd) height width).2 c =
        truncInt (fd (c.1 + 1, c.2 + 1) / np_max height width fd * 255) ∧
      0 ≤ (generate_color_maps md fd landscape (np_max height width md)
        (np_max height width fd) height width).2 c ∧
      (generate_color_maps md fd landscape (np_max height width md)
        (np_max height width fd) height width).2 c ≤ 255) ∧
    ((generate_and_write_maps md fd landscape height width).getD
        (c.1 * width + c.2) (0, 0, 0) =
      if landscape (c.1 + 1, c.2 + 1) ≠ 0 then
        ((generate_color_maps md fd landscape (np_max height width md)
          (np_max height width fd) height width).2 c,
         (generate_color_maps md fd landscape (np_max height width md)
          (np_max height width fd) height width).1 c, 0)
      else (0, 200, 255)) ∧
    (generate_and_write_maps md fd landscape height width).length = height * width := by
  have hmemc : ((c.1 + 1, c.2 + 1) : Cell) ∈ paddedCells height width :=
    (paddedCells_mem height width (c.1 + 1, c.2 + 1)).mpr ⟨by omega, by omega⟩
  refine ⟨?_, ?_, ?_, ?_, ?_, ?_⟩
  · intro h0
    show (if c.1 < height ∧ c.2 < width ∧ landscape (c.1 + 1, c.2 + 1) ≠ 0 then
        (if np_max height width md ≠ 0 then
          truncInt (md (c.1 + 1, c.2 + 1) / np_max height width md * 255)
        else 0) else 0) = 0
    by_cases hcond : c.1 < height ∧ c.2 < width ∧ landscape (c.1 + 1, c.2 + 1) ≠ 0
    · rw [if_pos hcond, if_neg (fun hne => hne h0)]
    · rw [if_neg hcond]
  · intro h0
    show (if c.1 < height ∧ c.2 < width ∧ landscape (c.1 + 1, c.2 + 1) ≠ 0 then
        (if np_max height width fd ≠ 0 then
          truncInt (fd (c.1 + 1, c.2 + 1) / np_max height width fd * 255)
        else 0) else 0) = 0
    by_cases hcond : c.1 < height ∧ c.2 < width ∧ landscape (c.1 + 1, c.2 + 1) ≠ 0
    · rw [if_pos hcond, if_neg (fun hne => hne h0)]
    · rw [if_neg hcond]
  · intro hland hmne
    have hcond : c.1 < height ∧ c.2 < width ∧ landscape (c.1 + 1, c.2 + 1) ≠ 0 :=
      ⟨hc1, hc2, hland⟩
    have hval : (generate_color_maps md fd landscape (np_max height width md)
        (np_max height width fd) height width).1 c =
        truncInt (md (c.1 + 1, c.2 + 1) / np_max height width md * 255) := by
      show (if c.1 < height ∧ c.2 < width ∧ landscape (c.1 + 1, c.2 + 1) ≠ 0 then
          (if np_max height width md ≠ 0 then
            truncInt (md (c.1 + 1, c.2 + 1) / np_max height width md * 255)
          else 0) else 0) = _
      rw [if_pos hcond, if_pos hmne]
    have h0v : 0 ≤ md (c.1 + 1, c.2 + 1) := hm _ hmemc
    have hle : md (c.1 + 1, c.2 + 1) ≤ np_max height width md := by
      unfold np_max
      exact mem_le_foldl_max _ _ _ (List.mem_map_of_mem md hmemc)
    obtain ⟨hb1, hb2⟩ := ratio_bounds _ _ h0v hle hmne
    obtain ⟨ht1, ht2⟩ := truncInt_bounds _ hb1 hb2
    rw [hval]
    exact ⟨rfl, ht1, ht2⟩
  · intro hland hmne
    have hcond : c.1 < height ∧ c.2 < width ∧ landscape (c.1 + 1, c.2 + 1) ≠ 0 :=
      ⟨hc1, hc2, hland⟩
    have hval : (generate_color_maps md fd landscape (np_max height width md)
        (np_max height width fd) height width).2 c =
        truncInt (fd (c.1 + 1, c.2 + 1) / np_max height width fd * 255) := by
      show (if c.1 < height ∧ c.2 < width ∧ landscape (c.1 + 1, c.2 + 1) ≠ 0 then
          (if np_max height width fd ≠ 0 then
            truncInt (fd (c.1 + 1, c.2 + 1) / np_max height width fd * 255)
          else 0) else 0) = _
      rw [if_pos hcond, if_pos hmne]
    have h0v : 0 ≤ fd (c.1 + 1, c.2 + 1) := hf _ hmemc
    have hle : fd (c.1 + 1, c.2 + 1) ≤ np_max height width fd := by
      unfold np_max
      exact mem_le_foldl_max _ _ _ (List.mem_map_of_mem fd hmemc)
    obtain ⟨hb1, hb2⟩ := ratio_bounds _ _ h0v hle hmne
    obtain ⟨ht1, ht2⟩ := truncInt_bounds _ hb1 hb2
    rw [hval]
    exact ⟨rfl, ht1, ht2⟩
  · unfold generate_and_write_maps write_ppm_file
    exact grid_list_getD height width _ c.1 c.2 hc1 hc2 (0, 0, 0)
  · unfold generate_and_write_maps write_ppm_file
    exact grid_list_length height width _

/-- Witness for C7: the 1×1 all-land grid with constant density 1 for
both species, at map cell `(0, 0)`. -/
theorem C7_visualization_witness :
    (np_max 1 1 (fun _ => 1) = 0 →
      (generate_color_maps (fun _ => 1) (fun _ => 1)
        (fun c => if c = (1, 1) then 1 else 0) (np_max 1 1 (fun _ => 1))
        (np_max 1 1 (fun _ => 1)) 1 1).1 (0, 0) = 0) ∧
    (np_max 1 1 (fun _ => 1) = 0 →
      (generate_color_maps (fun _ => 1) (fun _ => 1)
        (fun c => if c = (1, 1) then 1 else 0) (np_max 1 1 (fun _ => 1))
        (np_max 1 1 (fun _ => 1)) 1 1).2 (0, 0) = 0) ∧
    ((fun c => if c = (1, 1) then (1 : ℤ) else 0) ((0 : ℕ) + 1, (0 : ℕ) + 1) ≠ 0 →
      np_max 1 1 (fun _ => 1) ≠ 0 →
      (generate_color_maps (fun _ => 1) (fun _ => 1)
        (fun c => if c = (1, 1) then 1 else 0) (np_max 1 1 (fun _ => 1))
        (np_max 1 1 (fun _ => 1)) 1 1).1 (0, 0) =
        truncInt ((fun (_ : Cell) => (1 : ℚ)) ((0 : ℕ) + 1, (0 : ℕ) + 1) /
          np_max 1 1 (fun _ => 1) * 255) ∧
      0 ≤ (generate_color_maps (fun _ => 1) (fun _ => 1)
        (fun c => if c = (1, 1) then 1 else 0) (np_max 1 1 (fun _ => 1))
        (np_max 1 1 (fun _ => 1)) 1 1).1 (0, 0) ∧
      (generate_color_maps (fun _ => 1) (fun _ => 1)
        (fun c => if c = (1, 1) then 1 else 0) (np_max 1 1 (fun _ => 1))
        (np_max 1 1 (fun _ => 1)) 1 1).1 (0, 0) ≤ 255) ∧
    ((fun c => if c = (1, 1) then (1 : ℤ) else 0) ((0 : ℕ) + 1, (0 : ℕ) + 1) ≠ 0 →
      np_max 1 1 (fun _ => 1) ≠ 0 →
      (generate_color_maps (fun _ => 1) (fun _ => 1)
        (fun c => if c = (1, 1) then 1 else 0) (np_max 1 1 (fun _ => 1))
        (np_max 1 1 (fun _ => 1)) 1 1).2 (0, 0) =
        truncInt ((fun (_ : Cell) => (1 : ℚ)) ((0 : ℕ) + 1, (0 : ℕ) + 1) /
          np_max 1 1 (fun _ => 1) * 255) ∧
      0 ≤ (generate_color_maps (fun _ => 1) (fun _ => 1)
        (fun c => if c = (1, 1) then 1 else 0) (np_max 1 1 (fun _ => 1))
        (np_max 1 1 (fun _ => 1)) 1 1).2 (0, 0) ∧
      (generate_color_maps (fun _ => 1) (fun _ => 1)
        (fun c => if c = (1, 1) then 1 else 0) (np_max 1 1 (fun _ => 1))
        (np_max 1 1 (fun _ => 1)) 1 1).2 (0, 0) ≤ 255) ∧
    ((generate_and_write_maps (fun _ => 1) (fun _ => 1)
        (fun c => if c = (1, 1) then 1 else 0) 1 1).getD ((0 : ℕ) * 1 + 0) (0, 0, 0) =
      if (fun c => if c = (1, 1) then (1 : ℤ) else 0) ((0 : ℕ) + 1, (0 : ℕ) + 1) ≠ 0 then
        ((generate_color_maps (fun _ => 1) (fun _ => 1)
          (fun c => if c = (1, 1) then 1 else 0) (np_max 1 1 (fun _ => 1))
          (np_max 1 1 (fun _ => 1)) 1 1).2 (0, 0),
         (generate_color_maps (fun _ => 1) (fun _ => 1)
          (fun c => if c = (1, 1) then 1 else 0) (np_max 1 1 (fun _ => 1))
          (np_max 1 1 (fun _ => 1)) 1 1).1 (0, 0), 0)
      else (0, 200, 255)) ∧
    (generate_and_write_maps (fun _ => 1) (fun _ => 1)
      (fun c => if c = (1, 1) then 1 else 0) 1 1).length = 1 * 1 :=
  C7_visualization (fun _ => 1) (fun _ => 1) (fun c => if c = (1, 1) then 1 else 0)
    1 1 (0, 0) (fun p _ => by norm_num) (fun p _ => by norm_num)
    (by decide) (by decide)

/-- Model of `calculate_land_neighbors`: for every interior cell the sum of the
four neighbouring mask values, `0` elsewhere (`np.zeros_like`). -/
def calculate_land_neighbors (landscape : IGrid) (height width : ℕ) : IGrid :=
  fun c =>
    if inInterior height width c then
      landscape (c.1 - 1, c.2) + landscape (c.1 + 1, c.2) +
        landscape (c.1, c.2 - 1) + landscape (c.1, c.2 + 1)
    else 0

/-- The step count `total_time_steps = int(duration / delta_t)` (truncation toward
zero; a non-positive result yields an empty loop, like `range`). -/
def total_time_steps (duration : ℕ) (delta_t : ℚ) : ℕ :=
  (truncInt ((duration : ℚ) / delta_t)).toNat

/-- One data row of `averages.csv`: the data `write_averages` formats as
`<index>,<index*delta_t>,<avg_mice>,<avg_foxes>`. -/
structure AvgRow where
  index : ℕ
  time : ℚ
  mice : ℚ
  foxes : ℚ

/-- The row `print_and_write_averages(index, ...)` appends: averages of
the two current density buffers over the land count. -/
def avgRow (index : ℕ) (delta_t : ℚ) (mouse_density fox_density : Buf)
    (num_land_squares height width : ℕ) : AvgRow :=
  { index := index
    time := (index : ℚ) * delta_t
    mice := calculate_averages height width mouse_density num_land_squares
    foxes := calculate_averages height width fox_density num_land_squares }

/-- The `simulate` time loop, collecting its outputs: for each iteration
`i` (fuel `k` iterations remaining), if `i % time_step_interval == 0`
append an averages row and a PPM snapshot (recorded by its step index),
then run the kernel and swap. -/
def simLoop (landscape num_neighbors : IGrid) (mouse_rates fox_rates : Rates)
    (delta_t : ℚ) (height width interval num_land : ℕ) :
    ℕ → ℕ → SimState → List AvgRow × List ℕ
  | 0, _, _ => ([], [])
  | Nat.succ k, i, s =>
    let rest := simLoop landscape num_neighbors mouse_rates fox_rates delta_t
      height width interval num_land k (i + 1)
      (stepSim landscape num_neighbors mouse_rates fox_rates delta_t height width s)
    if i % interval = 0 then
      (avgRow i delta_t s.mouse s.fox num_land height width :: rest.1, i :: rest.2)
    else rest

/-- The persisted outputs of `simulate`: the data rows of `averages.csv`
(after the header), and the step indices of the PPM snapshot files.  The
pre-loop `print_and_write_averages(0, ...)` row comes first; snapshots
are only written inside the loop. -/
def simulate_outputs (landscape : IGrid) (u : ℤ → ℕ → ℚ) (mouse_seed fox_seed : ℤ)
    (mouse_rates fox_rates : Rates) (delta_t : ℚ) (interval duration : ℕ)
    (height width : ℕ) (g0 : RState) : List AvgRow × List ℕ :=
  let num_land := count_nonzero height width landscape
  let nn := calculate_land_neighbors landscape height width
  let s0 := (initSimState landscape u mouse_seed fox_seed height width g0).1
  let loop := simLoop landscape nn mouse_rates fox_rates delta_t height width
    interval num_land (total_time_steps duration delta_t) 0 s0
  (avgRow 0 delta_t s0.mouse s0.fox num_land height width :: loop.1, loop.2)

theorem simLoop_spec (landscape num_neighbors : IGrid) (mouse_rates fox_rates : Rates)
    (delta_t : ℚ) (height width interval num_land : ℕ) (k : ℕ) :
    ∀ (i : ℕ) (s : SimState),
      simLoop landscape num_neighbors mouse_rates fox_rates delta_t height width
          interval num_land k i s =
        (((List.range' i k).filter (fun j => j % interval = 0)).map
          (fun j => avgRow j delta_t
            ((stepSim landscape num_neighbors mouse_rates fox_rates delta_t
              height width)^[j - i] s).mouse
            ((stepSim landscape num_neighbors mouse_rates fox_rates delta_t
              height width)^[j - i] s).fox num_land height width),
         (List.range' i k).filter (fun j => j % interval = 0)) := by
  induction k with
  | zero =>
    intro i s
    rfl
  | succ k ih =>
    intro i s
    simp only [simLoop]
    rw [ih (i + 1) (stepSim landscape num_neighbors mouse_rates fox_rates delta_t
      height width s)]
    have hrange : List.range' i (k + 1) = i :: List.range' (i + 1) k :=
      List.range'_succ i k 1
    have hmap : ((List.range' (i + 1) k).filter (fun j => j % interval = 0)).map
        (fun j => avgRow j delta_t
          ((stepSim landscape num_neighbors mouse_rates fox_rates delta_t
            height width)^[j - (i + 1)]
            (stepSim landscape num_neighbors mouse_rates fox_rates delta_t
              height width s)).mouse
          ((stepSim landscape num_neighbors mouse_rates fox_rates delta_t
            height width)^[j - (i + 1)]
            (stepSim landscape num_neighbors mouse_rates fox_rates delta_t
              height width s)).fox num_land height width) =
        ((List.range' (i + 1) k).filter (fun j => j % interval = 0)).map
        (fun j => avgRow j delta_t
          ((stepSim landscape num_neighbors mouse_rates fox_rates delta_t
            height width)^[j - i] s).mouse
          ((stepSim landscape num_neighbors mouse_rates fox_rates delta_t
            height width)^[j - i] s).fox num_land height width) := by
      apply List.map_congr_left
      intro j hj
      have hjmem : j ∈ List.range' (i + 1) k := List.mem_of_mem_filter hj
      have hji : i + 1 ≤ j := (List.mem_range'_1.mp hjmem).1
      have hsub : j - i = (j - (i + 1)) + 1 := by omega
      rw [hsub, Function.iterate_succ_apply]
    rw [hmap, hrange]
    by_cases hi : i % interval = 0
    · rw [if_pos hi, List.filter_cons_of_pos (by simpa using hi), List.map_cons]
      have hzero : ((stepSim landscape num_neighbors mouse_rates fox_rates delta_t
          height width)^[i - i] s) = s := by
        have : i - i = 0 := by omega
        rw [this, Function.iterate_zero, id_eq]
      rw [hzero]
    · rw [if_neg hi, List.filter_cons_of_neg (by simpa using hi)]

/-- C5 counterexample.  With `duration = 1`, `delta_t = 1`,
`time_step_interval = 1` (one loop iteration), the sampled steps are
exactly `{0}`, yet the log carries two data rows for step 0: the
explicit pre-loop row and the `i = 0` in-loop row.  "Exactly one data
row per sampled step" is false. -/
theorem total_steps_one_one : total_time_steps 1 1 = 1 := by
  unfold total_time_steps truncInt
  norm_num

theorem total_steps_one_two : total_time_steps 1 2 = 0 := by
  unfold total_time_steps truncInt
  norm_num

theorem C5_counterexample :
    ((simulate_outputs (fun _ => 0) (fun _ _ => 0) 1 1 ⟨1, 1, 1⟩ ⟨1, 1, 1⟩ 1 1 1 1 1
        (0, 0)).1.map (fun r => r.index)) = [0, 0] ∧
    (List.range (total_time_steps 1 1)).filter (fun i => i % 1 = 0) = [0] ∧
    ([0, 0] : List ℕ) ≠ [0] := by
  refine ⟨?_, ?_, by decide⟩
  · simp only [simulate_outputs, total_steps_one_one]
    decide
  · rw [total_steps_one_one]
    decide

/-- C5 amended.  The averages log is the header followed by a step-0 row
computed from the freshly initialised densities, and then one row per
sampled step `i` (those `i < total_time_steps` with
`i % time_step_interval == 0`), each computed from the densities before
the kernel update of step `i` — so step 0 appears twice whenever the loop
runs at all; the snapshot indices are exactly the sampled steps. -/
theorem C5_amended_log_rows (landscape : IGrid) (u : ℤ → ℕ → ℚ)
    (mouse_seed fox_seed : ℤ) (mouse_rates fox_rates : Rates) (delta_t : ℚ)
    (interval duration height width : ℕ) (g0 : RState) :
    (simulate_outputs landscape u mouse_seed fox_seed mouse_rates fox_rates delta_t
        interval duration height width g0).1 =
      avgRow 0 delta_t
        (initSimState landscape u mouse_seed fox_seed height width g0).1.mouse
        (initSimState landscape u mouse_seed fox_seed height width g0).1.fox
        (count_nonzero height width landscape) height width ::
      ((List.range (total_time_steps duration delta_t)).filter
          (fun i => i % interval = 0)).map
        (fun i => avgRow i delta_t
          ((stepSim landscape (calculate_land_neighbors landscape height width)
              mouse_rates fox_rates delta_t height width)^[i]
            (initSimState landscape u mouse_seed fox_seed height width g0).1).mouse
          ((stepSim landscape (calculate_land_neighbors landscape height width)
              mouse_rates fox_rates delta_t height width)^[i]
            (initSimState landscape u mouse_seed fox_seed height width g0).1).fox
          (count_nonzero height width landscape) height width) ∧
    (simulate_outputs landscape u mouse_seed fox_seed mouse_rates fox_rates delta_t
        interval duration height width g0).2 =
      (List.range (total_time_steps duration delta_t)).filter
        (fun i => i % interval = 0) := by
  simp only [simulate_outputs]
  rw [simLoop_spec]
  simp only [← List.range_eq_range', Nat.sub_zero]
  constructor <;> trivial

/-- C10.  When `int(duration / delta_t) = 0` (the time step exceeds the
duration), `simulate` still writes the header and exactly one data row —
step 0, from the freshly initialised densities — and produces no PPM
snapshot at all: the pre-loop write emits only averages, and the loop
body, the only place snapshots are written, never runs. -/
theorem C10_zero_steps (landscape : IGrid) (u : ℤ → ℕ → ℚ)
    (mouse_seed fox_seed : ℤ) (mouse_rates fox_rates : Rates) (delta_t : ℚ)
    (interval duration height width : ℕ) (g0 : RState)
    (h0 : total_time_steps duration delta_t = 0) :
    (simulate_outputs landscape u mouse_seed fox_seed mouse_rates fox_rates delta_t
        interval duration height width g0).1 =
      [avgRow 0 delta_t
        (initSimState landscape u mouse_seed fox_seed height width g0).1.mouse
        (initSimState landscape u mouse_seed fox_seed height width g0).1.fox
        (count_nonzero height width landscape) height width] ∧
    (simulate_outputs landscape u mouse_seed fox_seed mouse_rates fox_rates delta_t
        interval duration height width g0).2 = [] := by
  simp only [simulate_outputs]
  rw [h0]
  exact ⟨rfl, rfl⟩

/-- Witness for C10: `duration = 1`, `delta_t = 2`, so
`int(duration/delta_t) = 0`. -/
theorem C10_zero_steps_witness :
    (simulate_outputs (fun _ => 0) (fun _ _ => 0) 1 1 ⟨1, 1, 1⟩ ⟨1, 1, 1⟩ 2 1 1 1 1
        (0, 0)).1 =
      [avgRow 0 2
        (initSimState (fun _ => 0) (fun _ _ => 0) 1 1 1 1 (0, 0)).1.mouse
        (initSimState (fun _ => 0) (fun _ _ => 0) 1 1 1 1 (0, 0)).1.fox
        (count_nonzero 1 1 (fun _ => 0)) 1 1] ∧
    (simulate_outputs (fun _ => 0) (fun _ _ => 0) 1 1 ⟨1, 1, 1⟩ ⟨1, 1, 1⟩ 2 1 1 1 1
        (0, 0)).2 = [] :=
  C10_zero_steps (fun _ => 0) (fun _ _ => 0) 1 1 ⟨1, 1, 1⟩ ⟨1, 1, 1⟩ 2 1 1 1 1 (0, 0)
    total_steps_one_two
